import Mathlib

/-!
Verification development for the SearchMyFiles search-and-discovery core.

Shallow embedding of:
  * `llm-stack/scripts/search-discovery/advanced-search-engine.py`
    (namespace `AdvSearch`),
  * `scripts/ml-ai/ai-enhanced-search.py` (namespace `AISearch`),
  * `llm-stack/scripts/search-discovery/discovery-features.py`
    (namespace `Discovery`).

Modelling conventions:
  * Python floats are modelled as exact rationals `ℚ`; the constants involved
    (0.1, 0.4, ...) and the comparisons the claims are about do not depend on
    binary rounding at these magnitudes.
  * `datetime` instants are modelled as integer day counts `ℤ`; the code only
    uses day-granularity differences (`(now - ts).days`).
  * Python `dict`s (insertion ordered, unique keys) are modelled as
    association lists with first-match lookup and in-place update.
  * Python string operations used by the code (`lower`, `split`, `split('. ')`,
    `in`, `replace`, slicing) are re-implemented structurally over `List Char`
    so that they compute inside the kernel; `split()` is modelled for the
    space character, the only whitespace appearing in the modelled data.
  * External collaborators (sentence-transformer embeddings, the chroma
    vector index, sklearn TF-IDF) are passed in as parameters carrying their
    returned data; everything done to their output is translated from the
    source.  sklearn's `cosine_similarity` is modelled by its mathematical
    definition over `ℝ`.
  * In-place mutation (of `item.metadata` in `get_trending_content`, of the
    `user_preferences` dict) is modelled by explicit state passing.
-/

/-! ## Python dict / string primitives -/

/-- Python dict lookup `m.get(k)` on an insertion-ordered association list. -/
def lookupA {α : Type} (k : String) : List (String × α) → Option α
  | [] => none
  | (k', v) :: rest => if k' = k then some v else lookupA k rest

/-- Python dict update `m[k] = v`: replace in place, else append. -/
def setA {α : Type} (m : List (String × α)) (k : String) (v : α) :
    List (String × α) :=
  match m with
  | [] => [(k, v)]
  | (k', v') :: rest => if k' = k then (k, v) :: rest else (k', v') :: setA rest k v

/-- Python dict lookup with default, `m.get(k, d)`. -/
def getD {α : Type} (m : List (String × α)) (k : String) (d : α) : α :=
  (lookupA k m).getD d

/-- Character-level lowercasing, modelling `str.lower()`. -/
def pyLower (s : String) : String := String.mk (s.data.map Char.toLower)

/-- Worker for `pySplit`: split on spaces, dropping empty fields. -/
def splitWSAux : List Char → List Char → List String
  | [], cur => if cur.isEmpty then [] else [String.mk cur.reverse]
  | c :: rest, cur =>
    if c = ' ' then
      if cur.isEmpty then splitWSAux rest [] else String.mk cur.reverse :: splitWSAux rest []
    else splitWSAux rest (c :: cur)

/-- Python `str.split()` (whitespace split, empty fields dropped), modelled
for the space character. -/
def pySplit (s : String) : List String := splitWSAux s.data []

/-- Contiguous-sublist test on character lists, modelling Python's `in`. -/
def isSubChars (pat : List Char) : List Char → Bool
  | [] => pat.isPrefixOf []
  | c :: rest => pat.isPrefixOf (c :: rest) || isSubChars pat rest

/-- Python substring test `pat in hay`. -/
def pyContains (hay pat : String) : Bool := isSubChars pat.data hay.data

/-- Fuelled worker for `pySplitSeq` (Python `str.split(sep)`, empties kept). -/
def splitSeqFuel (sep : List Char) : Nat → List Char → List Char → List (List Char)
  | 0, s, cur => [cur.reverse ++ s]
  | _ + 1, [], cur => [cur.reverse]
  | fuel + 1, c :: rest, cur =>
    if sep ≠ [] ∧ sep.isPrefixOf (c :: rest) then
      cur.reverse :: splitSeqFuel sep fuel (rest.drop (sep.length - 1)) []
    else splitSeqFuel sep fuel rest (c :: cur)

/-- Python `str.split(sep)` for a non-empty separator; empty fields kept. -/
def pySplitSeq (s sep : String) : List String :=
  (splitSeqFuel sep.data (s.data.length + 1) s.data []).map String.mk

/-- Fuelled worker for `pyReplace` (Python `str.replace`, left to right,
non-overlapping). -/
def replaceFuel (pat rep : List Char) : Nat → List Char → List Char
  | 0, s => s
  | _ + 1, [] => []
  | fuel + 1, c :: rest =>
    if pat ≠ [] ∧ pat.isPrefixOf (c :: rest) then
      rep ++ replaceFuel pat rep fuel (rest.drop (pat.length - 1))
    else c :: replaceFuel pat rep fuel rest

/-- Python `s.replace(pat, rep)` for a non-empty pattern. -/
def pyReplace (s pat rep : String) : String :=
  String.mk (replaceFuel pat.data rep.data (s.data.length + 1) s.data)

/-- Python string slicing `s[:n]`. -/
def pyTake (s : String) (n : Nat) : String := String.mk (s.data.take n)

/-! ## Stable descending sort

`list.sort(key=k, reverse=True)` in Python is the unique stable descending
sort by key; it is modelled by insertion sort, whose sortedness and
stability are proved below (`sortD_pairwise`, `sortD_filter_key`). -/

/-- Insert `x` in front of the first element whose key is not larger. -/
def insD {α : Type} (key : α → ℚ) (x : α) : List α → List α
  | [] => [x]
  | y :: ys => if key y ≤ key x then x :: y :: ys else y :: insD key x ys

/-- Stable descending insertion sort by a rational key. -/
def sortD {α : Type} (key : α → ℚ) : List α → List α
  | [] => []
  | x :: xs => insD key x (sortD key xs)

/-! ## advanced-search-engine.py (namespace AdvSearch) -/

namespace AdvSearch

/-- A metadata value: the string and list-of-string cases the engine's
metadata scan pattern-matches on (`isinstance(value, str)` /
`isinstance(value, list)`). -/
inductive MVal where
  | s (v : String)
  | l (vs : List String)
deriving DecidableEq, Repr

/-- A filter value from `query.filters`: a single required value or an
allowed-value list (`isinstance(filter_value, list)`). -/
inductive FVal where
  | single (v : MVal)
  | allowed (vs : List MVal)
deriving DecidableEq, Repr

/-- `SearchResult` dataclass. -/
structure SearchResult where
  id : String
  content : String
  source : String
  type : String
  score : ℚ
  metadata : List (String × MVal)
  highlights : List String
  tags : List String
  timestamp : ℤ
  relevance_factors : List (String × ℚ)
deriving DecidableEq, Repr

/-- `SearchQuery` dataclass.  `personalization_context` is a dict read only
through `.get('user_id')` and `bool(...)`; it is modelled as a string map. -/
structure SearchQuery where
  text : String
  filters : List (String × FVal)
  sort_by : String
  sort_order : String
  limit : Nat
  offset : Nat
  include_metadata : Bool
  include_highlights : Bool
  personalization_context : List (String × String)
deriving DecidableEq, Repr

/-- A document loaded by `_load_documents_for_search`, after the per-field
`doc.get(...)` defaults have been applied and the `timestamp` ISO string has
been parsed (parsing is external `datetime.fromisoformat`). -/
structure Doc where
  id : String
  content : String
  source : String
  type : String
  metadata : List (String × MVal)
  tags : List String
  timestamp : ℤ
deriving DecidableEq, Repr

/-- One hit returned by the external chroma vector-index query in
`_semantic_search`: id, document text, metadata and distance, with the
metadata timestamp already parsed. -/
structure SemHit where
  id : String
  content : String
  metadata : List (String × MVal)
  distance : ℚ
  timestamp : ℤ
deriving DecidableEq, Repr

/-- `search_patterns` entry of the analytics record. -/
structure SearchPatterns where
  query_length : Nat
  filter_count : Nat
  result_count : Nat
  avg_score : ℚ
deriving DecidableEq, Repr

/-- `user_behavior` entry of the analytics record. -/
structure UserBehavior where
  personalization_used : Bool
  filters_applied : Bool
deriving DecidableEq, Repr

/-- `SearchAnalytics` dataclass. -/
structure SearchAnalytics where
  query_time : ℚ
  total_results : Nat
  result_distribution : List (String × Nat)
  relevance_scores : List ℚ
  search_patterns : SearchPatterns
  user_behavior : UserBehavior
deriving DecidableEq, Repr

/-- String-valued metadata read with a default (`metadata.get(k, d)` where
the code expects a string). -/
def getStrA (m : List (String × MVal)) (k : String) (d : String) : String :=
  match lookupA k m with
  | some (MVal.s v) => v
  | _ => d

/-- List-valued metadata read with default `[]` (`metadata.get('tags', [])`). -/
def getListA (m : List (String × MVal)) (k : String) : List String :=
  match lookupA k m with
  | some (MVal.l vs) => vs
  | _ => []

/-- `_calculate_metadata_score`: double loop over query terms and the split
metadata value; a pair scores 0.5 when either term contains the other as a
substring, `elif` 1.0 on case-insensitive equality. -/
def calculateMetadataScore (queryTerms : List String) (metadataValue : String) : ℚ :=
  let metadataWords := pySplit metadataValue
  queryTerms.foldl (fun acc qt =>
    metadataWords.foldl (fun acc2 w =>
      if pyContains w qt || pyContains qt w then acc2 + 1/2
      else if pyLower qt = pyLower w then acc2 + 1
      else acc2) acc) 0

/-- Inner loop of `_generate_highlights`: wrap every query term occurring in
the lowercased sentence in `**` markers, via repeated `str.replace`. -/
def highlightSentence (terms : List String) (sentence : String) : String :=
  let lower := pyLower sentence
  terms.foldl (fun acc term =>
    if pyContains lower term then pyReplace acc term ("**" ++ term ++ "**") else acc)
    sentence

/-- Number of query terms occurring in the lowercased sentence
(`relevance_score` in `_generate_highlights`). -/
def sentenceRelevance (terms : List String) (sentence : String) : Nat :=
  (terms.filter (fun t => pyContains (pyLower sentence) t)).length

/-- Sentence loop of `_generate_highlights`, stopping after 3 highlights. -/
def genHighlightsGo (terms : List String) : List String → List String → List String
  | [], acc => acc
  | s :: rest, acc =>
    if 0 < sentenceRelevance terms s then
      let acc2 := acc ++ [highlightSentence terms s]
      if 3 ≤ acc2.length then acc2 else genHighlightsGo terms rest acc2
    else genHighlightsGo terms rest acc

/-- `_generate_highlights`. -/
def generateHighlights (query content : String) : List String :=
  genHighlightsGo (pySplit (pyLower query)) (pySplitSeq content ". ") []

/-- Metadata scan of one field in `_metadata_search`: accumulate the field
score into the total and record it under `f"{field}_match"`. -/
def metaScanField (queryTerms : List String) (field : String) (v : MVal)
    (acc : ℚ × List (String × ℚ)) : ℚ × List (String × ℚ) :=
  match v with
  | MVal.s val =>
    let fs := calculateMetadataScore queryTerms (pyLower val)
    if 0 < fs then (acc.1 + fs, setA acc.2 (field ++ "_match") fs) else acc
  | MVal.l items =>
    items.foldl (fun a it =>
      let fs := calculateMetadataScore queryTerms (pyLower it)
      if 0 < fs then (a.1 + fs, setA a.2 (field ++ "_match") fs) else a) acc

/-- `_metadata_search`: score every document's metadata against the query
terms; documents with total score 0 are dropped. -/
def metadataSearch (docs : List Doc) (q : SearchQuery) : List SearchResult :=
  let queryTerms := pySplit (pyLower q.text)
  docs.filterMap (fun d =>
    let sr : ℚ × List (String × ℚ) :=
      d.metadata.foldl (fun acc fv => metaScanField queryTerms fv.1 fv.2 acc)
        ((0 : ℚ), ([] : List (String × ℚ)))
    if 0 < sr.1 then
      some { id := d.id, content := d.content, source := d.source, type := d.type,
             score := sr.1, metadata := d.metadata,
             highlights := generateHighlights q.text d.content,
             tags := d.tags, timestamp := d.timestamp, relevance_factors := sr.2 }
    else none)

/-- `_semantic_search` applied to the raw hits returned by the external
vector index: `score = 1 - distance`. -/
def semanticSearch (hits : List SemHit) (q : SearchQuery) : List SearchResult :=
  hits.map (fun h =>
    let score := 1 - h.distance
    { id := h.id, content := h.content,
      source := getStrA h.metadata "source" "unknown",
      type := getStrA h.metadata "type" "document",
      score := score, metadata := h.metadata,
      highlights := generateHighlights q.text h.content,
      tags := getListA h.metadata "tags", timestamp := h.timestamp,
      relevance_factors := [("semantic_similarity", score)] })

/-- `_keyword_search` applied to the TF-IDF cosine similarities computed by
the external sklearn vectorizer (one similarity per document); candidates
with similarity not above 0.1 are dropped. -/
def keywordSearch (sims : List ℚ) (docs : List Doc) (q : SearchQuery) :
    List SearchResult :=
  if docs.isEmpty then []
  else
    (docs.zip sims).filterMap (fun ds =>
      if 1/10 < ds.2 then
        some { id := ds.1.id, content := ds.1.content, source := ds.1.source,
               type := ds.1.type, score := ds.2, metadata := ds.1.metadata,
               highlights := generateHighlights q.text ds.1.content,
               tags := ds.1.tags, timestamp := ds.1.timestamp,
               relevance_factors := [("keyword_similarity", ds.2)] }
      else none)

/-- One filter check in `_apply_filters`: a single filter value must equal
the metadata value, an allowed list must contain it. -/
def matchesFilter (mv : MVal) : FVal → Bool
  | FVal.single v => mv == v
  | FVal.allowed vs => vs.contains mv

/-- `include_result` of `_apply_filters`: each filter pair whose key is
present in the metadata must match; a pair whose key is absent imposes no
constraint. -/
def advKeep (filters : List (String × FVal)) (r : SearchResult) : Bool :=
  filters.all (fun kv =>
    match lookupA kv.1 r.metadata with
    | none => true
    | some mv => matchesFilter mv kv.2)

/-- `_apply_filters` (advanced-search-engine version). -/
def advApplyFilters (results : List SearchResult) (filters : List (String × FVal)) :
    List SearchResult :=
  if filters.isEmpty then results
  else results.filter (fun r => advKeep filters r)

/-- Freshness decay `max(0, 1 - days_old/365)` of `_advanced_ranking`. -/
def freshnessScore (now ts : ℤ) : ℚ :=
  max 0 (1 - ((now - ts : ℤ) : ℚ) / 365)

/-- Composite score of `_advanced_ranking`: weighted sum over the factors
present in `relevance_factors` (weights 0.4 / 0.3 / 0.2 / 0.1), plus the
freshness term added unconditionally with weight 0.1. -/
def compositeOf (rf : List (String × ℚ)) (fresh : ℚ) : ℚ :=
  ((lookupA "semantic_similarity" rf).getD 0) * (2/5)
    + ((lookupA "keyword_similarity" rf).getD 0) * (3/10)
    + ((lookupA "metadata_match" rf).getD 0) * (1/5)
    + ((lookupA "freshness" rf).getD 0) * (1/10)
    + fresh * (1/10)

/-- Per-result body of `_advanced_ranking`: store the freshness factor and
overwrite `score` with the composite score. -/
def updateComposite (now : ℤ) (r : SearchResult) : SearchResult :=
  let fresh := freshnessScore now r.timestamp
  { r with score := compositeOf r.relevance_factors fresh,
           relevance_factors := setA r.relevance_factors "freshness" fresh }

/-- `_advanced_ranking`: recompute every score, then
`results.sort(key=lambda x: x.score, reverse=True)` (stable). -/
def advancedRanking (results : List SearchResult) (now : ℤ) : List SearchResult :=
  sortD (fun r => r.score) (results.map (updateComposite now))

/-- A stored preference mapping (`preferences` dict, values read as string
lists through `.get(k, [])`). -/
abbrev Prefs := List (String × List String)

/-- Additive personalization boost of `_apply_personalization`. -/
def prefBoost (prefs : Prefs) (r : SearchResult) : ℚ :=
  (if (getD prefs "preferred_types" []).contains r.type then 1/5 else 0)
    + ((r.tags.filter (fun t => (getD prefs "preferred_tags" []).contains t)).length : ℚ)
        * (1/10)
    + (if (getD prefs "preferred_sources" []).contains r.source then 3/20 else 0)

/-- `_apply_personalization`: boost and re-sort when the context carries a
known, non-empty user id; otherwise return the list unchanged. -/
def applyPersonalization (results : List SearchResult) (q : SearchQuery)
    (store : List (String × Prefs)) : List SearchResult :=
  if q.personalization_context.isEmpty then results
  else
    match lookupA "user_id" q.personalization_context with
    | none => results
    | some u =>
      if u = "" then results
      else
        match lookupA u store with
        | none => results
        | some prefs =>
          let boosted := results.map (fun r =>
            let b := prefBoost prefs r
            { r with score := r.score + b,
                     relevance_factors := setA r.relevance_factors "personalization_boost" b })
          sortD (fun r => r.score) boosted

/-- Increment a counter key (`collections.Counter` over result types;
insertion order is first occurrence). -/
def bumpCount (m : List (String × Nat)) (k : String) : List (String × Nat) :=
  match lookupA k m with
  | some n => setA m k (n + 1)
  | none => setA m k 1

/-- `Counter(result.type for result in results)` as an ordered map. -/
def countByType (rs : List SearchResult) : List (String × Nat) :=
  rs.foldl (fun acc r => bumpCount acc r.type) []

/-- `_generate_search_analytics`. -/
def generateSearchAnalytics (q : SearchQuery) (results : List SearchResult)
    (queryTime : ℚ) : SearchAnalytics :=
  let scores := results.map (fun r => r.score)
  { query_time := queryTime,
    total_results := results.length,
    result_distribution := countByType results,
    relevance_scores := scores,
    search_patterns :=
      { query_length := (pySplit q.text).length,
        filter_count := q.filters.length,
        result_count := results.length,
        avg_score := if scores.isEmpty then 0 else scores.sum / scores.length },
    user_behavior :=
      { personalization_used := !q.personalization_context.isEmpty,
        filters_applied := !q.filters.isEmpty } }

/-- `search`: merge the three strategies' candidates, filter, rank,
personalize, paginate, and report analytics over the final page.  The
external semantic hits and TF-IDF similarities are parameters; the wall
clock `queryTime` is a parameter; the history append of `_record_search`
is not modelled (no claim touches it). -/
def search (hits : List SemHit) (sims : List ℚ) (docs : List Doc)
    (q : SearchQuery) (now : ℤ) (store : List (String × Prefs)) (queryTime : ℚ) :
    List SearchResult × SearchAnalytics :=
  let results := semanticSearch hits q ++ keywordSearch sims docs q ++ metadataSearch docs q
  let filtered := advApplyFilters results q.filters
  let ranked := advancedRanking filtered now
  let personalized := applyPersonalization ranked q store
  let final := (personalized.drop q.offset).take q.limit
  (final, generateSearchAnalytics q final queryTime)

/-- `set_user_preferences`: dict assignment on the preference store. -/
def setUserPreferences (store : List (String × Prefs)) (userId : String)
    (preferences : Prefs) : List (String × Prefs) :=
  setA store userId preferences

/-- `get_user_preferences`: `self.user_preferences.get(user_id, {})`. -/
def getUserPreferences (store : List (String × Prefs)) (userId : String) : Prefs :=
  getD store userId []

/-- A sequence of `set_user_preferences` calls applied to the fresh engine
state (`self.user_preferences = {}`). -/
def applyPrefOps (ops : List (String × Prefs)) : List (String × Prefs) :=
  ops.foldl (fun s op => setUserPreferences s op.1 op.2) []

end AdvSearch

/-! ## ai-enhanced-search.py (namespace AISearch) -/

namespace AISearch

/-- A result dict as consumed by `_deduplicate_results` and `_apply_filters`:
the fields those functions read (`result.get('content', '')` and
`result.get('metadata', {})`). -/
structure AIRes where
  content : String
  metadata : List (String × AdvSearch.MVal)
deriving DecidableEq, Repr

/-- The deduplication key
`f"{result.get('content', '')[:100]}_{result.get('metadata', {}).get('source', '')}"`. -/
def contentKey (r : AIRes) : String :=
  pyTake r.content 100 ++ "_" ++ AdvSearch.getStrA r.metadata "source" ""

/-- Loop of `_deduplicate_results`, with the `seen_content` set carried
explicitly (modelled as a list of keys). -/
def dedupAux (seen : List String) : List AIRes → List AIRes
  | [] => []
  | r :: rs =>
    if contentKey r ∈ seen then dedupAux seen rs
    else r :: dedupAux (contentKey r :: seen) rs

/-- `_deduplicate_results`. -/
def dedupResults (rs : List AIRes) : List AIRes := dedupAux [] rs

/-- `include_result` of the ai-enhanced `_apply_filters`: every filter key
must be present in the metadata and match; an absent key excludes the
result (`else: include_result = False`). -/
def aiKeep (filters : List (String × AdvSearch.FVal)) (r : AIRes) : Bool :=
  filters.all (fun kv =>
    match lookupA kv.1 r.metadata with
    | none => false
    | some mv => AdvSearch.matchesFilter mv kv.2)

/-- `_apply_filters` (ai-enhanced-search version). -/
def aiApplyFilters (results : List AIRes) (filters : List (String × AdvSearch.FVal)) :
    List AIRes :=
  results.filter (fun r => aiKeep filters r)

end AISearch

/-! ## discovery-features.py (namespace Discovery) -/

namespace Discovery

/-- `ContentItem` dataclass.  Within the modelled operations the metadata
dict is only written at key `'trending_score'` and read back numerically,
so its values are modelled as rationals. -/
structure ContentItem where
  id : String
  content : String
  title : String
  type : String
  source : String
  tags : List String
  metadata : List (String × ℚ)
  timestamp : ℤ
  popularity_score : ℚ
  engagement_metrics : List (String × ℚ)
deriving DecidableEq, Repr, Inhabited

/-- Window threshold of `get_trending_content`: `now` minus 1/7/30 days,
defaulting to 7 days for an unrecognized window string. -/
def windowThreshold (now : ℤ) (timeWindow : String) : ℤ :=
  if timeWindow = "1d" then now - 1
  else if timeWindow = "7d" then now - 7
  else if timeWindow = "30d" then now - 30
  else now - 7

/-- Trending score `popularity*0.6 + engagement*0.3 + time_decay*0.1` with
`time_decay = 1/(1 + days_old)`.  (For `days_old = -1` the Python code
raises `ZeroDivisionError`; rational division returns 0 there — no claim
touches that case.) -/
def trendingScore (now : ℤ) (item : ContentItem) : ℚ :=
  let engagementScore := (item.engagement_metrics.map (fun kv => kv.2)).sum
  let timeDecay : ℚ := 1 / (1 + ((now - item.timestamp : ℤ) : ℚ))
  item.popularity_score * (3/5) + engagementScore * (3/10) + timeDecay * (1/10)

/-- In-place mutation `item.metadata['trending_score'] = trending_score`
modelled as a functional update. -/
def storeTrendingScore (now : ℤ) (item : ContentItem) : ContentItem :=
  { item with metadata := setA item.metadata "trending_score" (trendingScore now item) }

/-- `get_trending_content`: filter the catalog to the window, write every
recent item's trending score into its metadata, sort descending by that
score (stable) and truncate.  The first component is the returned list;
the second is the catalog after the in-place metadata writes. -/
def getTrendingContent (items : List ContentItem) (now : ℤ) (timeWindow : String)
    (limit : Nat) : List ContentItem × List ContentItem :=
  let threshold := windowThreshold now timeWindow
  let recent := (items.filter (fun it => threshold ≤ it.timestamp)).map
    (storeTrendingScore now)
  let sorted := sortD (fun it => getD it.metadata "trending_score" 0) recent
  (sorted.take limit,
   items.map (fun it => if threshold ≤ it.timestamp then storeTrendingScore now it else it))

/-- Dot product of two embedding vectors (rational coordinates). -/
def dotQ : List ℚ → List ℚ → ℚ
  | a :: as, b :: bs => a * b + dotQ as bs
  | _, _ => 0

/-- sklearn `cosine_similarity` of two embedding vectors, modelled by its
mathematical definition over `ℝ`. -/
noncomputable def cosineSim (a b : List ℚ) : ℝ :=
  ((dotQ a b : ℚ) : ℝ) /
    (Real.sqrt ((dotQ a a : ℚ) : ℝ) * Real.sqrt ((dotQ b b : ℚ) : ℝ))

/-- The `i < j` double loop of `_calculate_cluster_coherence`, collecting
pairwise similarities of the cluster members' embeddings. -/
noncomputable def pairSims : List (List ℚ) → List ℝ
  | [] => []
  | e :: rest => rest.map (fun e2 => cosineSim e e2) ++ pairSims rest

/-- `_calculate_cluster_coherence`, taking the cluster members' embeddings
(the Python code fetches them by index from the catalog): 1.0 for fewer
than two members, else the unclamped mean of the pairwise similarities. -/
noncomputable def calculateClusterCoherence (embs : List (List ℚ)) : ℝ :=
  if embs.length < 2 then 1
  else
    let sims := pairSims embs
    if sims.isEmpty then 0 else sims.sum / sims.length

end Discovery

/-! ## Concrete inputs used by counterexamples and witnesses -/

namespace AdvSearch

/-- A query with no filters and no personalization, text `"ml"`. -/
def qEx : SearchQuery :=
  { text := "ml", filters := [], sort_by := "score", sort_order := "desc",
    limit := 10, offset := 0, include_metadata := true,
    include_highlights := true, personalization_context := [] }

/-- A search result whose metadata lacks every filter key. -/
def rNoMeta : SearchResult :=
  { id := "a", content := "", source := "s", type := "document", score := 0,
    metadata := [], highlights := [], tags := [], timestamp := 0,
    relevance_factors := [] }

/-- Tied-score candidate with the larger id, listed first. -/
def rTieB : SearchResult := { rNoMeta with id := "b" }

/-- Tied-score candidate with the smaller id, listed second. -/
def rTieA : SearchResult := rNoMeta

/-- A document matched by `qEx` through its metadata; `docDupB` shares its
content and source. -/
def docDupA : Doc :=
  { id := "a", content := "ml stuff", source := "s", type := "document",
    metadata := [("topic", MVal.s "ml")], tags := [], timestamp := 0 }

/-- Same content and source as `docDupA`, different id. -/
def docDupB : Doc := { docDupA with id := "b" }

/-- The metadata-strategy candidate produced for `docDupA` under `qEx`. -/
def srDupA : SearchResult :=
  { id := "a", content := "ml stuff", source := "s", type := "document",
    score := 1/2, metadata := [("topic", MVal.s "ml")],
    highlights := ["**ml** stuff"], tags := [], timestamp := 0,
    relevance_factors := [("topic_match", 1/2)] }

/-- The metadata-strategy candidate produced for `docDupB` under `qEx`. -/
def srDupB : SearchResult := { srDupA with id := "b" }

end AdvSearch

namespace Discovery

/-- A content item at the reference instant with empty metadata. -/
def itemEx : ContentItem :=
  { id := "x", content := "c", title := "t", type := "document", source := "s",
    tags := [], metadata := [], timestamp := 0, popularity_score := 0,
    engagement_metrics := [] }

end Discovery

/-! ## Helper lemmas -/

theorem mem_insD {α : Type} (key : α → ℚ) (x a : α) (l : List α) :
    a ∈ insD key x l ↔ a = x ∨ a ∈ l := by
  induction l with
  | nil => simp [insD]
  | cons y ys ih =>
    by_cases h : key y ≤ key x
    · simp [insD, h]
    · simp only [insD, if_neg h, List.mem_cons, ih]
      tauto

theorem insD_pairwise {α : Type} (key : α → ℚ) (x : α) (l : List α)
    (h : l.Pairwise (fun a b => key b ≤ key a)) :
    (insD key x l).Pairwise (fun a b => key b ≤ key a) := by
  induction l with
  | nil => simp [insD]
  | cons y ys ih =>
    rcases List.pairwise_cons.mp h with ⟨hy, hys⟩
    by_cases hle : key y ≤ key x
    · rw [insD, if_pos hle]
      refine List.pairwise_cons.mpr ⟨?_, h⟩
      intro z hz
      rcases List.mem_cons.mp hz with rfl | hz'
      · exact hle
      · exact le_trans (hy z hz') hle
    · rw [insD, if_neg hle]
      refine List.pairwise_cons.mpr ⟨?_, ih hys⟩
      intro z hz
      rcases (mem_insD key x z ys).mp hz with rfl | hz'
      · exact le_of_lt (lt_of_not_le hle)
      · exact hy z hz'

theorem sortD_pairwise {α : Type} (key : α → ℚ) (l : List α) :
    (sortD key l).Pairwise (fun a b => key b ≤ key a) := by
  induction l with
  | nil => simp [sortD]
  | cons x xs ih => exact insD_pairwise key x (sortD key xs) ih

theorem mem_sortD {α : Type} (key : α → ℚ) (a : α) (l : List α) :
    a ∈ sortD key l ↔ a ∈ l := by
  induction l with
  | nil => simp [sortD]
  | cons x xs ih => simp [sortD, mem_insD, ih]

theorem insD_filter_eq {α : Type} (key : α → ℚ) (x : α) (c : ℚ) (l : List α)
    (h : key x = c) :
    (insD key x l).filter (fun z => decide (key z = c)) =
      x :: l.filter (fun z => decide (key z = c)) := by
  induction l with
  | nil => simp [insD, h]
  | cons y ys ih =>
    by_cases hle : key y ≤ key x
    · rw [insD, if_pos hle]
      simp [List.filter, h]
    · have hyc : ¬ key y = c := by
        intro hc
        refine hle ?_
        rw [hc, ← h]
      rw [insD, if_neg hle]
      simp [List.filter, hyc, ih]

theorem insD_filter_ne {α : Type} (key : α → ℚ) (x : α) (c : ℚ) (l : List α)
    (h : ¬ key x = c) :
    (insD key x l).filter (fun z => decide (key z = c)) =
      l.filter (fun z => decide (key z = c)) := by
  induction l with
  | nil => simp [insD, h]
  | cons y ys ih =>
    by_cases hle : key y ≤ key x
    · rw [insD, if_pos hle]
      simp [List.filter, h]
    · rw [insD, if_neg hle]
      by_cases hyc : key y = c <;> simp [List.filter, hyc, ih]

theorem sortD_filter_key {α : Type} (key : α → ℚ) (l : List α) (c : ℚ) :
    (sortD key l).filter (fun z => decide (key z = c)) =
      l.filter (fun z => decide (key z = c)) := by
  induction l with
  | nil => simp [sortD]
  | cons x xs ih =>
    by_cases hx : key x = c
    · rw [sortD, insD_filter_eq key x c _ hx]
      simp [List.filter, hx, ih]
    · rw [sortD, insD_filter_ne key x c _ hx]
      simp [List.filter, hx, ih]

theorem lookupA_setA_self {α : Type} (m : List (String × α)) (k : String) (v : α) :
    lookupA k (setA m k v) = some v := by
  induction m with
  | nil => simp [setA, lookupA]
  | cons kv rest ih =>
    by_cases h : kv.1 = k
    · simp [setA, h, lookupA]
    · simp [setA, h, lookupA, ih]

theorem lookupA_setA_ne {α : Type} (m : List (String × α)) (k k' : String) (v : α)
    (h : ¬ k' = k) : lookupA k' (setA m k v) = lookupA k' m := by
  induction m with
  | nil => simp [setA, lookupA, Ne.symm h]
  | cons kv rest ih =>
    by_cases hk : kv.1 = k
    · simp [setA, hk, lookupA, Ne.symm h]
    · by_cases hk' : kv.1 = k' <;> simp [setA, lookupA, hk, hk', h, ih]

theorem mem_dedupAux (seen : List String) (rs : List AISearch.AIRes)
    (r : AISearch.AIRes) (h : r ∈ AISearch.dedupAux seen rs) :
    r ∈ rs ∧ AISearch.contentKey r ∉ seen := by
  induction rs generalizing seen with
  | nil => simp [AISearch.dedupAux] at h
  | cons x xs ih =>
    by_cases hk : AISearch.contentKey x ∈ seen
    · rw [AISearch.dedupAux, if_pos hk] at h
      have hx := ih seen h
      exact ⟨List.mem_cons_of_mem x hx.1, hx.2⟩
    · rw [AISearch.dedupAux, if_neg hk] at h
      rcases List.mem_cons.mp h with rfl | h'
      · exact ⟨List.mem_cons_self _ _, hk⟩
      · have hx := ih (AISearch.contentKey x :: seen) h'
        refine ⟨List.mem_cons_of_mem x hx.1, ?_⟩
        intro hmem
        exact hx.2 (List.mem_cons_of_mem _ hmem)

theorem dedupAux_sublist (seen : List String) (rs : List AISearch.AIRes) :
    (AISearch.dedupAux seen rs).Sublist rs := by
  induction rs generalizing seen with
  | nil => simp [AISearch.dedupAux]
  | cons x xs ih =>
    by_cases hk : AISearch.contentKey x ∈ seen
    · rw [AISearch.dedupAux, if_pos hk]
      exact (ih seen).cons x
    · rw [AISearch.dedupAux, if_neg hk]
      exact (ih _).cons₂ x

theorem dedupAux_pairwise (seen : List String) (rs : List AISearch.AIRes) :
    (AISearch.dedupAux seen rs).Pairwise
      (fun a b => AISearch.contentKey a ≠ AISearch.contentKey b) := by
  induction rs generalizing seen with
  | nil => simp [AISearch.dedupAux]
  | cons x xs ih =>
    by_cases hk : AISearch.contentKey x ∈ seen
    · rw [AISearch.dedupAux, if_pos hk]
      exact ih seen
    · rw [AISearch.dedupAux, if_neg hk]
      refine List.pairwise_cons.mpr ⟨?_, ih _⟩
      intro b hb hkey
      have h2 := (mem_dedupAux _ _ _ hb).2
      apply h2
      rw [← hkey]
      exact List.mem_cons_self _ _

theorem dedupAux_findq (seen : List String) (rs : List AISearch.AIRes) (k : String)
    (hk : k ∉ seen) :
    (AISearch.dedupAux seen rs).find? (fun x => AISearch.contentKey x == k) =
      rs.find? (fun x => AISearch.contentKey x == k) := by
  induction rs generalizing seen with
  | nil => simp [AISearch.dedupAux]
  | cons x xs ih =>
    by_cases hx : AISearch.contentKey x ∈ seen
    · have hbx : (AISearch.contentKey x == k) = false := by
        simp only [beq_eq_false_iff_ne, ne_eq]
        intro he
        exact hk (he ▸ hx)
      simp only [AISearch.dedupAux, if_pos hx, List.find?_cons, hbx]
      exact ih seen hk
    · rw [AISearch.dedupAux, if_neg hx]
      by_cases he : AISearch.contentKey x = k
      · have hbx : (AISearch.contentKey x == k) = true := by simp [he]
        simp only [List.find?_cons, hbx]
      · have hbx : (AISearch.contentKey x == k) = false := by simp [he]
        simp only [List.find?_cons, hbx]
        refine ih _ ?_
        intro hmem
        rcases List.mem_cons.mp hmem with h1 | h2
        · exact he h1.symm
        · exact hk h2

theorem getPrefs_foldl (ops : List (String × AdvSearch.Prefs))
    (s : List (String × AdvSearch.Prefs)) (u : String) :
    AdvSearch.getUserPreferences
        (ops.foldl (fun st op => AdvSearch.setUserPreferences st op.1 op.2) s) u =
      ((ops.reverse.find? (fun op => decide (op.1 = u))).map (fun op => op.2)).getD
        (AdvSearch.getUserPreferences s u) := by
  induction ops generalizing s with
  | nil => simp
  | cons o rest ih =>
    rw [List.foldl_cons, ih, List.reverse_cons, List.find?_append]
    cases hfind : rest.reverse.find? (fun op => decide (op.1 = u)) with
    | some op => simp
    | none =>
      simp only [Option.none_or]
      by_cases hu : o.1 = u
      · simp [List.find?, hu, AdvSearch.getUserPreferences,
          AdvSearch.setUserPreferences, getD, lookupA_setA_self]
      · have hu' : ¬ u = o.1 := fun h => hu h.symm
        simp [List.find?, hu, AdvSearch.getUserPreferences,
          AdvSearch.setUserPreferences, getD, lookupA_setA_ne _ _ _ _ hu']

theorem trending_mem_threshold (items : List Discovery.ContentItem) (now : ℤ)
    (w : String) (limit : Nat) (it : Discovery.ContentItem)
    (h : it ∈ (Discovery.getTrendingContent items now w limit).1) :
    Discovery.windowThreshold now w ≤ it.timestamp := by
  simp only [Discovery.getTrendingContent] at h
  have h2 := List.take_subset _ _ h
  rw [mem_sortD] at h2
  rcases List.mem_map.mp h2 with ⟨a, ha, rfl⟩
  exact of_decide_eq_true (List.mem_filter.mp ha).2

/-! ## Claim theorems -/

/-- C10: `get_user_preferences(u)` returns exactly the preferences mapping
most recently stored by `set_user_preferences(u, ·)` over any sequence of
set calls, and the empty mapping for a user id never set. -/
theorem C10_user_preferences (ops : List (String × AdvSearch.Prefs)) (u : String) :
    AdvSearch.getUserPreferences (AdvSearch.applyPrefOps ops) u =
      ((ops.reverse.find? (fun op => decide (op.1 = u))).map (fun op => op.2)).getD [] := by
  rw [AdvSearch.applyPrefOps, getPrefs_foldl]
  simp [AdvSearch.getUserPreferences, getD, lookupA]

/-- C5: the composite score of `_advanced_ranking` is monotone in each of
the four weighted relevance factors and in the freshness term: increasing
any single one while holding the others fixed never decreases it. -/
theorem C5_composite_monotone (rf : List (String × ℚ)) (fresh : ℚ) :
    (∀ x y : ℚ, x ≤ y →
        AdvSearch.compositeOf (setA rf "semantic_similarity" x) fresh ≤
          AdvSearch.compositeOf (setA rf "semantic_similarity" y) fresh) ∧
      (∀ x y : ℚ, x ≤ y →
        AdvSearch.compositeOf (setA rf "keyword_similarity" x) fresh ≤
          AdvSearch.compositeOf (setA rf "keyword_similarity" y) fresh) ∧
      (∀ x y : ℚ, x ≤ y →
        AdvSearch.compositeOf (setA rf "metadata_match" x) fresh ≤
          AdvSearch.compositeOf (setA rf "metadata_match" y) fresh) ∧
      (∀ x y : ℚ, x ≤ y →
        AdvSearch.compositeOf (setA rf "freshness" x) fresh ≤
          AdvSearch.compositeOf (setA rf "freshness" y) fresh) ∧
      (∀ f g : ℚ, f ≤ g →
        AdvSearch.compositeOf rf f ≤ AdvSearch.compositeOf rf g) := by
  refine ⟨?_, ?_, ?_, ?_, ?_⟩ <;> intro x y hxy <;>
    simp only [AdvSearch.compositeOf, lookupA_setA_self, Option.getD_some,
      lookupA_setA_ne _ _ _ _ (by decide : ¬ "semantic_similarity" = "keyword_similarity"),
      lookupA_setA_ne _ _ _ _ (by decide : ¬ "semantic_similarity" = "metadata_match"),
      lookupA_setA_ne _ _ _ _ (by decide : ¬ "semantic_similarity" = "freshness"),
      lookupA_setA_ne _ _ _ _ (by decide : ¬ "keyword_similarity" = "semantic_similarity"),
      lookupA_setA_ne _ _ _ _ (by decide : ¬ "keyword_similarity" = "metadata_match"),
      lookupA_setA_ne _ _ _ _ (by decide : ¬ "keyword_similarity" = "freshness"),
      lookupA_setA_ne _ _ _ _ (by decide : ¬ "metadata_match" = "semantic_similarity"),
      lookupA_setA_ne _ _ _ _ (by decide : ¬ "metadata_match" = "keyword_similarity"),
      lookupA_setA_ne _ _ _ _ (by decide : ¬ "metadata_match" = "freshness"),
      lookupA_setA_ne _ _ _ _ (by decide : ¬ "freshness" = "semantic_similarity"),
      lookupA_setA_ne _ _ _ _ (by decide : ¬ "freshness" = "keyword_similarity"),
      lookupA_setA_ne _ _ _ _ (by decide : ¬ "freshness" = "metadata_match")] <;>
    nlinarith [hxy]

/-- C5 witness: the semantic-similarity monotonicity at a concrete input. -/
theorem C5_witness :
    (0 : ℚ) ≤ 1 ∧
      AdvSearch.compositeOf (setA [] "semantic_similarity" 0) 0 ≤
        AdvSearch.compositeOf (setA [] "semantic_similarity" 1) 0 :=
  ⟨zero_le_one, (C5_composite_monotone [] 0).1 0 1 zero_le_one⟩

/-- C7 counterexample: for two opposite embeddings the cluster coherence is
negative, so it does not lie in [0,1] and no clamping happens. -/
theorem C7_counterexample :
    Discovery.calculateClusterCoherence [[1, 0], [-1, 0]] < 0 := by
  have hd1 : Discovery.dotQ [1, 0] [-1, 0] = -1 := by norm_num [Discovery.dotQ]
  have hd2 : Discovery.dotQ [1, 0] [1, 0] = 1 := by norm_num [Discovery.dotQ]
  have hd3 : Discovery.dotQ [-1, 0] [-1, 0] = 1 := by norm_num [Discovery.dotQ]
  have hcos : Discovery.cosineSim [1, 0] [-1, 0] = -1 := by
    rw [Discovery.cosineSim, hd1, hd2, hd3]
    push_cast
    rw [Real.sqrt_one]
    norm_num
  rw [Discovery.calculateClusterCoherence, if_neg (by norm_num)]
  simp only [Discovery.pairSims, List.map_cons, List.map_nil, List.append_nil,
    List.nil_append, hcos]
  norm_num

/-- C7 (amended): `_calculate_cluster_coherence` returns exactly 1.0 for a
cluster with fewer than two members; the score is the unclamped mean of the
pairwise cosine similarities otherwise. -/
theorem C7_singleton_coherence (embs : List (List ℚ)) (h : embs.length < 2) :
    Discovery.calculateClusterCoherence embs = 1 := by
  rw [Discovery.calculateClusterCoherence, if_pos h]

/-- C7 witness: the singleton-cluster case evaluated. -/
theorem C7_witness :
    ([[(1 : ℚ), 0]] : List (List ℚ)).length < 2 ∧
      Discovery.calculateClusterCoherence [[(1 : ℚ), 0]] = 1 :=
  ⟨by decide, C7_singleton_coherence [[(1 : ℚ), 0]] (by decide)⟩

/-- C6 counterexample: `get_trending_content` mutates the catalog — after
the call the single in-window item's metadata has gained a
`trending_score` key, so the catalog is not left unchanged. -/
theorem C6_counterexample :
    (Discovery.getTrendingContent [Discovery.itemEx] 0 "7d" 10).2 ≠
      [Discovery.itemEx] := by
  intro h
  rw [show (Discovery.getTrendingContent [Discovery.itemEx] 0 "7d" 10).2
      = [Discovery.storeTrendingScore 0 Discovery.itemEx] from rfl] at h
  have h1 : Discovery.storeTrendingScore 0 Discovery.itemEx = Discovery.itemEx :=
    (List.cons_eq_cons.mp h).1
  have h2 := congrArg Discovery.ContentItem.metadata h1
  simp [Discovery.storeTrendingScore, Discovery.itemEx, setA] at h2

/-- C6 (amended): `get_trending_content` leaves every field of every catalog
item unchanged except the metadata key `trending_score`; items outside the
window keep that key too. -/
theorem C6_trending_frame (items : List Discovery.ContentItem) (now : ℤ)
    (timeWindow : String) (limit : Nat) :
    List.Forall₂ (fun a b =>
        b.id = a.id ∧ b.content = a.content ∧ b.title = a.title ∧
        b.type = a.type ∧ b.source = a.source ∧ b.tags = a.tags ∧
        b.timestamp = a.timestamp ∧ b.popularity_score = a.popularity_score ∧
        b.engagement_metrics = a.engagement_metrics ∧
        ∀ k, ¬ k = "trending_score" → lookupA k b.metadata = lookupA k a.metadata)
      items (Discovery.getTrendingContent items now timeWindow limit).2 := by
  rw [show (Discovery.getTrendingContent items now timeWindow limit).2
      = items.map (fun it =>
          if Discovery.windowThreshold now timeWindow ≤ it.timestamp
          then Discovery.storeTrendingScore now it else it) from rfl]
  rw [List.forall₂_map_right_iff, List.forall₂_same]
  intro it _
  by_cases hts : Discovery.windowThreshold now timeWindow ≤ it.timestamp
  · rw [if_pos hts]
    exact ⟨rfl, rfl, rfl, rfl, rfl, rfl, rfl, rfl, rfl,
      fun k hk => lookupA_setA_ne _ _ _ _ hk⟩
  · rw [if_neg hts]
    exact ⟨rfl, rfl, rfl, rfl, rfl, rfl, rfl, rfl, rfl, fun k _ => rfl⟩

/-- C6 witness: the frame property applied to a one-item catalog, showing an
unrelated metadata key is preserved. -/
theorem C6_witness :
    lookupA "topic"
        ((Discovery.getTrendingContent [Discovery.itemEx] 0 "7d" 1).2.headI).metadata
      = lookupA "topic" Discovery.itemEx.metadata := by
  have h := C6_trending_frame [Discovery.itemEx] 0 "7d" 1
  rw [show (Discovery.getTrendingContent [Discovery.itemEx] 0 "7d" 1).2
      = [Discovery.storeTrendingScore 0 Discovery.itemEx] from rfl] at h ⊢
  rcases h with - | ⟨hab, -⟩
  exact hab.2.2.2.2.2.2.2.2.2 "topic" (by decide)

/-- C9: every item returned by `get_trending_content` has a timestamp at or
after the window threshold (`now` minus 1/7/30 days); in particular every
item of the `"1d"` result is within one day of `now`; and an unrecognized
window string behaves exactly like `"7d"`. -/
theorem C9_trending_window (items : List Discovery.ContentItem) (now : ℤ)
    (timeWindow : String) (limit : Nat) :
    (∀ it ∈ (Discovery.getTrendingContent items now timeWindow limit).1,
        Discovery.windowThreshold now timeWindow ≤ it.timestamp) ∧
      (∀ it ∈ (Discovery.getTrendingContent items now "1d" limit).1,
        now - 1 ≤ it.timestamp) ∧
      (¬ timeWindow = "1d" → ¬ timeWindow = "7d" → ¬ timeWindow = "30d" →
        Discovery.getTrendingContent items now timeWindow limit =
          Discovery.getTrendingContent items now "7d" limit) := by
  refine ⟨fun it h => trending_mem_threshold items now timeWindow limit it h,
    fun it h => ?_, fun h1 h2 h3 => ?_⟩
  · have := trending_mem_threshold items now "1d" limit it h
    simpa [Discovery.windowThreshold] using this
  · have ht : Discovery.windowThreshold now timeWindow = now - 7 := by
      simp [Discovery.windowThreshold, h1, h2, h3]
    have ht7 : Discovery.windowThreshold now "7d" = now - 7 := by
      simp [Discovery.windowThreshold]
    simp only [Discovery.getTrendingContent, ht, ht7]

/-- C9 witness: a concrete in-window item is returned and satisfies the
window bound, and the unrecognized window `"2d"` equals `"7d"`. -/
theorem C9_witness :
    (Discovery.storeTrendingScore 0 Discovery.itemEx ∈
        (Discovery.getTrendingContent [Discovery.itemEx] 0 "1d" 10).1) ∧
      ((0 : ℤ) - 1 ≤ (Discovery.storeTrendingScore 0 Discovery.itemEx).timestamp) ∧
      Discovery.getTrendingContent [Discovery.itemEx] 0 "2d" 10 =
        Discovery.getTrendingContent [Discovery.itemEx] 0 "7d" 10 := by
  have hmem : Discovery.storeTrendingScore 0 Discovery.itemEx ∈
      (Discovery.getTrendingContent [Discovery.itemEx] 0 "1d" 10).1 := by
    rw [show (Discovery.getTrendingContent [Discovery.itemEx] 0 "1d" 10).1
        = [Discovery.storeTrendingScore 0 Discovery.itemEx] from rfl]
    exact List.mem_singleton.mpr rfl
  refine ⟨hmem, ?_, ?_⟩
  · have := (C9_trending_window [Discovery.itemEx] 0 "1d" 10).2.1
      (Discovery.storeTrendingScore 0 Discovery.itemEx) hmem
    exact this
  · exact (C9_trending_window [Discovery.itemEx] 0 "2d" 10).2.2
      (by decide) (by decide) (by decide)

/-- C1 counterexample: a result whose metadata lacks the filter key is KEPT
by advanced-search-engine's `_apply_filters`, not excluded. -/
theorem C1_counterexample :
    AdvSearch.advApplyFilters [AdvSearch.rNoMeta]
        [("type", AdvSearch.FVal.single (AdvSearch.MVal.s "document"))]
      = [AdvSearch.rNoMeta] ∧
      lookupA "type" AdvSearch.rNoMeta.metadata = none ∧
      ([("type", AdvSearch.FVal.single (AdvSearch.MVal.s "document"))] :
          List (String × AdvSearch.FVal)) ≠ [] :=
  ⟨rfl, rfl, by simp⟩

/-- C1 (amended): advanced-search-engine's filter keeps a result iff every
filter pair whose key is present in the metadata matches (a missing key
imposes no constraint), while the ai-enhanced-search filter additionally
requires every filter key to be present. -/
theorem C1_filter_semantics (results : List AdvSearch.SearchResult)
    (filters : List (String × AdvSearch.FVal)) :
    AdvSearch.advApplyFilters results filters
        = results.filter (fun r => AdvSearch.advKeep filters r) ∧
      (∀ r : AdvSearch.SearchResult,
        AdvSearch.advKeep filters r = true ↔
          ∀ kv ∈ filters, ∀ mv, lookupA kv.1 r.metadata = some mv →
            AdvSearch.matchesFilter mv kv.2 = true) ∧
      (∀ (rs : List AISearch.AIRes) (r : AISearch.AIRes),
        r ∈ AISearch.aiApplyFilters rs filters ↔
          r ∈ rs ∧ ∀ kv ∈ filters, ∃ mv, lookupA kv.1 r.metadata = some mv ∧
            AdvSearch.matchesFilter mv kv.2 = true) := by
  refine ⟨?_, ?_, ?_⟩
  · rw [AdvSearch.advApplyFilters]
    by_cases h : filters.isEmpty
    · rw [if_pos h, List.isEmpty_iff.mp h]
      simp [AdvSearch.advKeep]
    · rw [if_neg h]
  · intro r
    rw [AdvSearch.advKeep, List.all_eq_true]
    constructor
    · intro h kv hkv mv hmv
      have h2 := h kv hkv
      simp only [hmv] at h2
      exact h2
    · intro h kv hkv
      cases hmv : lookupA kv.1 r.metadata with
      | none => simp only [hmv]
      | some mv =>
        simp only [hmv]
        exact h kv hkv mv hmv
  · intro rs r
    rw [AISearch.aiApplyFilters, List.mem_filter]
    have hai : AISearch.aiKeep filters r = true ↔
        ∀ kv ∈ filters, ∃ mv, lookupA kv.1 r.metadata = some mv ∧
          AdvSearch.matchesFilter mv kv.2 = true := by
      rw [AISearch.aiKeep, List.all_eq_true]
      refine forall_congr' fun kv => forall_congr' fun hkv => ?_
      cases hmv : lookupA kv.1 r.metadata with
      | none => simp [hmv]
      | some mv => simp [hmv]
    rw [hai]

/-- C1 witness: the advanced-engine keep-predicate accepts a result whose
metadata lacks the only filter key. -/
theorem C1_witness :
    AdvSearch.advKeep [("type", AdvSearch.FVal.single (AdvSearch.MVal.s "document"))]
        AdvSearch.rNoMeta = true :=
  ((C1_filter_semantics [AdvSearch.rNoMeta]
        [("type", AdvSearch.FVal.single (AdvSearch.MVal.s "document"))]).2.1
      AdvSearch.rNoMeta).mpr
    (fun _ _ _ hmv => Option.noConfusion hmv)

/-- C2 counterexample: two candidates with equal composite scores keep their
input order after ranking — reversing the input order reverses the output
order, so ties are not broken by ascending item id and the tie order is not
independent of the input order. -/
theorem C2_counterexample :
    ((AdvSearch.advancedRanking [AdvSearch.rTieB, AdvSearch.rTieA] 0).map (fun r => r.id)
        = ["b", "a"]) ∧
      ((AdvSearch.advancedRanking [AdvSearch.rTieA, AdvSearch.rTieB] 0).map (fun r => r.id)
        = ["a", "b"]) ∧
      ((AdvSearch.advancedRanking [AdvSearch.rTieB, AdvSearch.rTieA] 0).map (fun r => r.score)
        = [1/10, 1/10]) := by
  have hkey : (AdvSearch.updateComposite 0 AdvSearch.rTieA).score
      = (AdvSearch.updateComposite 0 AdvSearch.rTieB).score := rfl
  have hBA : AdvSearch.advancedRanking [AdvSearch.rTieB, AdvSearch.rTieA] 0
      = [AdvSearch.updateComposite 0 AdvSearch.rTieB,
         AdvSearch.updateComposite 0 AdvSearch.rTieA] := by
    rw [AdvSearch.advancedRanking]
    simp only [List.map_cons, List.map_nil, sortD, insD]
    rw [if_pos (le_of_eq hkey)]
  have hAB : AdvSearch.advancedRanking [AdvSearch.rTieA, AdvSearch.rTieB] 0
      = [AdvSearch.updateComposite 0 AdvSearch.rTieA,
         AdvSearch.updateComposite 0 AdvSearch.rTieB] := by
    rw [AdvSearch.advancedRanking]
    simp only [List.map_cons, List.map_nil, sortD, insD]
    rw [if_pos (le_of_eq hkey.symm)]
  have hfresh : AdvSearch.freshnessScore 0 0 = 1 := by
    have h0 : (((0 : ℤ) - (0 : ℤ) : ℤ) : ℚ) / 365 = 0 := by norm_num
    rw [AdvSearch.freshnessScore, h0, sub_zero]
    exact max_eq_right zero_le_one
  have hsc : AdvSearch.compositeOf [] 1 = 1/10 := by
    norm_num [AdvSearch.compositeOf, lookupA]
  refine ⟨?_, ?_, ?_⟩
  · rw [hBA]
    rfl
  · rw [hAB]
    rfl
  · rw [hBA, List.map_cons, List.map_cons, List.map_nil,
      show (AdvSearch.updateComposite 0 AdvSearch.rTieB).score
        = AdvSearch.compositeOf [] (AdvSearch.freshnessScore 0 0) from rfl,
      show (AdvSearch.updateComposite 0 AdvSearch.rTieA).score
        = AdvSearch.compositeOf [] (AdvSearch.freshnessScore 0 0) from rfl,
      hfresh, hsc]

/-- C2 (amended): the ranked list is sorted in descending order of composite
score, and the multiset of results at each score value keeps its candidate
order (the sort is stable); ties are not reordered by item id. -/
theorem C2_ranking_order (results : List AdvSearch.SearchResult) (now : ℤ) :
    (AdvSearch.advancedRanking results now).Pairwise (fun a b => b.score ≤ a.score) ∧
      ∀ c : ℚ,
        (AdvSearch.advancedRanking results now).filter (fun r => decide (r.score = c)) =
          (results.map (AdvSearch.updateComposite now)).filter
            (fun r => decide (r.score = c)) :=
  ⟨sortD_pairwise (fun r => r.score) (results.map (AdvSearch.updateComposite now)),
   fun c => sortD_filter_key (fun r => r.score) (results.map (AdvSearch.updateComposite now)) c⟩

theorem calcMeta_ml_half : AdvSearch.calculateMetadataScore ["ml"] "ml" = 1/2 := by
  have h1 : pySplit "ml" = ["ml"] := rfl
  have h2 : (pyContains "ml" "ml" || pyContains "ml" "ml") = true := rfl
  rw [AdvSearch.calculateMetadataScore]
  simp only [h1, List.foldl_cons, List.foldl_nil, h2, if_true]
  norm_num

/-- C4: an exact token match is scored through the substring branch and
contributes 0.5, not the claimed 1.0 — the `elif` awarding 1.0 is dead for
the lowercased inputs the call sites pass. -/
theorem C4_exact_match_scores_half :
    AdvSearch.calculateMetadataScore ["ml"] "ml" = 1/2 ∧ ¬ ((1 : ℚ)/2 = 1) :=
  ⟨calcMeta_ml_half, by norm_num⟩

/-- C3 (amended): `_deduplicate_results` keeps, in order, exactly the first
encountered result for each (first 100 content characters, source) key:
its output is a sublist of the input, its keys are pairwise distinct, and
the first hit for any key is unchanged. -/
theorem C3_dedup (rs : List AISearch.AIRes) :
    (AISearch.dedupResults rs).Sublist rs ∧
      (AISearch.dedupResults rs).Pairwise
        (fun a b => AISearch.contentKey a ≠ AISearch.contentKey b) ∧
      ∀ k : String,
        (AISearch.dedupResults rs).find? (fun x => AISearch.contentKey x == k) =
          rs.find? (fun x => AISearch.contentKey x == k) :=
  ⟨dedupAux_sublist [] rs, dedupAux_pairwise [] rs,
   fun k => dedupAux_findq [] rs k (by simp)⟩

/-- C3 counterexample: advanced-search-engine's `search` applies no
deduplication — two catalog items with identical content and source both
appear in the fused result list for a query matching both. -/
theorem C3_counterexample :
    ((AdvSearch.search [] [] [AdvSearch.docDupA, AdvSearch.docDupB]
        AdvSearch.qEx 0 [] 0).1.map (fun r => r.content) = ["ml stuff", "ml stuff"]) ∧
      ((AdvSearch.search [] [] [AdvSearch.docDupA, AdvSearch.docDupB]
        AdvSearch.qEx 0 [] 0).1.map (fun r => r.source) = ["s", "s"]) := by
  have hcalc : AdvSearch.calculateMetadataScore ["ml"] (pyLower "ml") = 1/2 :=
    calcMeta_ml_half
  have hms : AdvSearch.metadataSearch [AdvSearch.docDupA, AdvSearch.docDupB] AdvSearch.qEx
      = [AdvSearch.srDupA, AdvSearch.srDupB] := by
    norm_num [AdvSearch.metadataSearch, AdvSearch.metaScanField, AdvSearch.docDupA,
      AdvSearch.docDupB, AdvSearch.qEx, AdvSearch.srDupA, AdvSearch.srDupB, setA,
      hcalc, List.filterMap_cons,
      show pySplit (pyLower "ml") = ["ml"] from rfl,
      show ("topic" ++ "_match" : String) = "topic_match" from rfl,
      show AdvSearch.generateHighlights "ml" "ml stuff" = ["**ml** stuff"] from rfl]
  have hpipe : (AdvSearch.search [] [] [AdvSearch.docDupA, AdvSearch.docDupB]
      AdvSearch.qEx 0 [] 0).1
      = [AdvSearch.updateComposite 0 AdvSearch.srDupA,
         AdvSearch.updateComposite 0 AdvSearch.srDupB] := by
    simp only [AdvSearch.search]
    rw [show AdvSearch.semanticSearch [] AdvSearch.qEx = [] from rfl,
      show AdvSearch.keywordSearch [] [AdvSearch.docDupA, AdvSearch.docDupB]
        AdvSearch.qEx = [] from rfl, hms]
    simp only [List.nil_append]
    rw [show AdvSearch.advApplyFilters [AdvSearch.srDupA, AdvSearch.srDupB]
        AdvSearch.qEx.filters = [AdvSearch.srDupA, AdvSearch.srDupB] from rfl]
    rw [AdvSearch.advancedRanking]
    simp only [List.map_cons, List.map_nil, sortD, insD]
    rw [if_pos (le_of_eq (show (AdvSearch.updateComposite 0 AdvSearch.srDupB).score
        = (AdvSearch.updateComposite 0 AdvSearch.srDupA).score from rfl))]
    rfl
  rw [hpipe]
  exact ⟨rfl, rfl⟩

/-- C8: with an empty catalog (no documents and hence no vector-index hits)
`search` returns an empty result list and analytics with zero total
results, for every query, preference store and timing. -/
theorem C8_empty_catalog (q : AdvSearch.SearchQuery) (now : ℤ)
    (store : List (String × AdvSearch.Prefs)) (sims : List ℚ) (qt : ℚ) :
    (AdvSearch.search [] sims [] q now store qt).1 = [] ∧
      (AdvSearch.search [] sims [] q now store qt).2.total_results = 0 := by
  have hfil : AdvSearch.advApplyFilters [] q.filters = [] := by
    rw [AdvSearch.advApplyFilters]
    split <;> simp
  have hpers : AdvSearch.applyPersonalization [] q store = [] := by
    rw [AdvSearch.applyPersonalization]
    split
    · rfl
    · split
      · rfl
      · split
        · rfl
        · split
          · rfl
          · simp [sortD]
  have hmain : (AdvSearch.search [] sims [] q now store qt).1 = [] := by
    simp only [AdvSearch.search]
    rw [show AdvSearch.semanticSearch [] q = [] from rfl,
      show AdvSearch.keywordSearch sims [] q = [] from rfl,
      show AdvSearch.metadataSearch [] q = [] from rfl]
    simp only [List.nil_append, hfil]
    rw [show AdvSearch.advancedRanking [] now = [] from rfl, hpers]
    simp
  refine ⟨hmain, ?_⟩
  have h2 : (AdvSearch.search [] sims [] q now store qt).2
      = AdvSearch.generateSearchAnalytics q
          ((AdvSearch.search [] sims [] q now store qt).1) qt := rfl
  rw [h2, hmain]
  rfl
